import Mathlib

/-!
# Verification of the Senior-PP-Rate-Cap-Sim capped allocation solver

Shallow embedding of `optimize_per_person_funding_enum` from `src/app.py`,
together with proofs and refutations of the frozen claims about it.

Numeric values are modelled as exact rationals (`ℚ`).  The Python code uses
IEEE doubles; the grid points `np.linspace(0, 4000, 400001)` are modelled as
the exact values `k / 100` for `k = 0, …, 400000`, and Python's
`round(PP, 2)` is modelled as rounding to the nearest multiple of `1/100`
(the two agree on every grid point, where both are the identity).
-/

namespace RateCapSim

/-- One recipient row of the uploaded table.  `per_center_cap` is `none` when
the optional CSV column is absent (pandas then materialises a column of
zeros in the code, which `Option.getD 0` reproduces row-wise). -/
structure Recipient where
  people_served : ℚ
  incentive : ℚ
  per_center_cap : Option ℚ
deriving Repr, DecidableEq

/-- The large number the code substitutes for a zero cap
(`1000000000000` in `app.py`, lines 23 and 26). -/
def SENTINEL : ℚ := 1000000000000

/-- `app.py` line 23 / lines 25-26: a cap equal to `0` is replaced by the
large sentinel value. -/
def sentinelize (c : ℚ) : ℚ := if c = 0 then SENTINEL else c

/-- The scan ceiling: grid rates run from 0 to 4000 (`np.linspace(0, 4000, 400001)`). -/
def RATE_MAX : ℚ := 4000

/-- Effective caps (`caps = np.minimum(caps_i, cap)`, `app.py` lines 22-29):
per-row per-center cap (0 or absent replaced by the sentinel) capped by the
global cap (0 replaced by the sentinel). -/
def capsOf (database : List Recipient) (cap : ℚ) : List ℚ :=
  database.map (fun r => min (sentinelize (r.per_center_cap.getD 0)) (sentinelize cap))

/-- One row of `np.minimum(base_funding + unincorporated_funding * y + PP * x, caps)`
(`app.py` line 36). -/
def fundingRow (base_funding unincorporated_funding PP : ℚ) (r : Recipient) (c : ℚ) : ℚ :=
  min (base_funding + unincorporated_funding * r.incentive + PP * r.people_served) c

/-- The per-center funding vector at rate `PP` (`app.py` line 36). -/
def fundingVec (database : List Recipient)
    (base_funding unincorporated_funding cap PP : ℚ) : List ℚ :=
  List.zipWith (fundingRow base_funding unincorporated_funding PP) database (capsOf database cap)

/-- `total_funding_used = np.sum(funding_per_center)` (`app.py` line 37):
the aggregate `F(rate)` of the spec. -/
def aggF (database : List Recipient)
    (base_funding unincorporated_funding cap PP : ℚ) : ℚ :=
  (fundingVec database base_funding unincorporated_funding cap PP).sum

/-- `funding_gap = abs(total_funding - total_funding_used)` (`app.py` line 38). -/
def gapF (database : List Recipient)
    (total_funding base_funding unincorporated_funding cap PP : ℚ) : ℚ :=
  |total_funding - aggF database base_funding unincorporated_funding cap PP|

/-- Python's `round(PP, 2)` (`app.py` line 42), on exact rationals. -/
def round2 (q : ℚ) : ℚ := ((round (q * 100) : ℤ) : ℚ) / 100

/-- The candidate grid `pp_values = np.linspace(0, 4000, 400001)`
(`app.py` line 31): the exact values `k / 100`, `k = 0, …, 400000`. -/
def ppValues : List ℚ := (List.range 400001).map (fun k : ℕ => (k : ℚ) / 100)

/-- Loop state once the first candidate has been accepted:
`(min_funding_gap, best_pp, best_funding_per_center)`. -/
abbrev ScanState : Type := ℚ × ℚ × List ℚ

/-- The body of the scan loop, after the first acceptance
(`app.py` lines 40-43): a candidate replaces the incumbent only when it
improves the gap by strictly more than the `0.01` buffer. -/
def scanStep (g : ℚ → ℚ) (f : ℚ → List ℚ) (st : ScanState) (PP : ℚ) : ScanState :=
  if g PP < st.1 - 1 / 100 then (g PP, round2 PP, f PP) else st

/-- The loop body including the initial `min_funding_gap = float("inf")`,
`best_pp = None` state: any finite gap is below `inf - 0.01`, so the first
candidate is always accepted. -/
def scanOpt (g : ℚ → ℚ) (f : ℚ → List ℚ) (st : Option ScanState) (PP : ℚ) :
    Option ScanState :=
  match st with
  | none => some (g PP, round2 PP, f PP)
  | some s => some (scanStep g f s PP)

/-- Folding the loop body over a list of candidates from an already-seeded state. -/
def scanFrom (g : ℚ → ℚ) (f : ℚ → List ℚ) (l : List ℚ) (st : ScanState) : ScanState :=
  l.foldl (scanStep g f) st

/-- The output table built in `app.py` lines 45-50: the original rows, the
scalar `best_pp` broadcast to all rows, the best funding vector, and the four
parameter echo columns.  Note line 50 echoes the variable `cap` after it was
overwritten by the sentinel when the input was `0`. -/
structure OutputTable where
  rows : List Recipient
  per_person_rate : ℚ
  per_center_funding : List ℚ
  total_funding_col : ℚ
  base_funding_col : ℚ
  unincorporated_funding_col : ℚ
  global_cap_col : ℚ
deriving Repr, DecidableEq

/-- `optimize_per_person_funding_enum` (`app.py` lines 16-52).

With an empty record list, `pd.DataFrame(database)` has no columns at all,
so `df["people_served"]` on line 18 raises `KeyError`; this is the
`Except.error` branch.  Otherwise the grid scan of lines 31-43 runs and its
result populates the output table of lines 45-50. -/
def optimize_per_person_funding_enum (database : List Recipient)
    (total_funding base_funding unincorporated_funding cap : ℚ) :
    Except String (OutputTable × ℚ) :=
  if database = [] then
    Except.error "KeyError: people_served"
  else
    match ppValues.foldl
        (scanOpt (gapF database total_funding base_funding unincorporated_funding cap)
          (fundingVec database base_funding unincorporated_funding cap)) none with
    | none => Except.error "NameError: best_funding_per_center"
    | some (_, bp, bf) =>
        Except.ok
          ({ rows := database
             per_person_rate := bp
             per_center_funding := bf
             total_funding_col := total_funding
             base_funding_col := base_funding
             unincorporated_funding_col := unincorporated_funding
             global_cap_col := sentinelize cap }, bp)

/-- The saturation warning of `app.py` line 77: fires only when the returned
rate reaches `3999.99`. -/
def infeasibilityWarning (best_pp : ℚ) : Bool := decide ((399999 : ℚ) / 100 ≤ best_pp)

/-- Modelled from the spec: the spec's reading of the effective cap,
`min(per_center_cap or +∞, global_cap or +∞)`, with genuine unboundedness
(`none`) instead of the code's finite sentinel.  Used only to compare the
code's `capsOf` against the words of claim C5. -/
def specEffectiveCap (pcc : Option ℚ) (gcap : ℚ) : Option ℚ :=
  match (if pcc.getD 0 = 0 then none else some (pcc.getD 0)),
      (if gcap = 0 then none else some gcap) with
  | none, none => none
  | some a, none => some a
  | none, some b => some b
  | some a, some b => some (min a b)

/-! ## Generic lemmas about the grid scan -/

theorem scanFrom_nil (g : ℚ → ℚ) (f : ℚ → List ℚ) (st : ScanState) :
    scanFrom g f [] st = st := rfl

theorem scanFrom_cons (g : ℚ → ℚ) (f : ℚ → List ℚ) (q : ℚ) (l : List ℚ) (st : ScanState) :
    scanFrom g f (q :: l) st = scanFrom g f l (scanStep g f st q) := rfl

theorem scanFrom_append (g : ℚ → ℚ) (f : ℚ → List ℚ) (l1 l2 : List ℚ) (st : ScanState) :
    scanFrom g f (l1 ++ l2) st = scanFrom g f l2 (scanFrom g f l1 st) :=
  List.foldl_append _ _ _ _

/-- Folding the optional-state loop from an already-seeded state never
returns to the unseeded state. -/
theorem foldl_scanOpt_some (g : ℚ → ℚ) (f : ℚ → List ℚ) (l : List ℚ) (st : ScanState) :
    l.foldl (scanOpt g f) (some st) = some (scanFrom g f l st) := by
  induction l generalizing st with
  | nil => rfl
  | cons q l ih =>
      rw [List.foldl_cons, scanFrom_cons]
      exact ih (scanStep g f st q)

/-- The first candidate is always accepted (a finite gap is always below
`inf - 0.01`), seeding the state. -/
theorem foldl_scanOpt_cons (g : ℚ → ℚ) (f : ℚ → List ℚ) (p : ℚ) (l : List ℚ) :
    (p :: l).foldl (scanOpt g f) none =
      some (scanFrom g f l (g p, round2 p, f p)) := by
  rw [List.foldl_cons]
  exact foldl_scanOpt_some g f l (g p, round2 p, f p)

/-- One loop step never increases the recorded minimum gap. -/
theorem scanStep_fst_le (g : ℚ → ℚ) (f : ℚ → List ℚ) (st : ScanState) (PP : ℚ) :
    (scanStep g f st PP).1 ≤ st.1 := by
  unfold scanStep
  split
  · rename_i h
    simpa using by linarith
  · exact le_rfl

/-- The recorded minimum gap never increases along the scan. -/
theorem scanFrom_fst_le (g : ℚ → ℚ) (f : ℚ → List ℚ) (l : List ℚ) (st : ScanState) :
    (scanFrom g f l st).1 ≤ st.1 := by
  induction l generalizing st with
  | nil => exact le_rfl
  | cons q l ih =>
      rw [scanFrom_cons]
      exact le_trans (ih (scanStep g f st q)) (scanStep_fst_le g f st q)

/-- After the scan, the recorded minimum gap is within the `0.01` buffer of
the gap at every candidate it visited. -/
theorem scanFrom_fst_le_gap (g : ℚ → ℚ) (f : ℚ → List ℚ) (l : List ℚ) (st : ScanState) :
    ∀ r ∈ l, (scanFrom g f l st).1 ≤ g r + 1 / 100 := by
  induction l generalizing st with
  | nil => intro r hr; cases hr
  | cons q l ih =>
      intro r hr
      rw [scanFrom_cons]
      rcases List.mem_cons.mp hr with rfl | hr
      · have h1 : (scanStep g f st r).1 ≤ g r + 1 / 100 := by
          unfold scanStep
          split
          · simp
          · rename_i h
            push_neg at h
            simpa using by linarith
        exact le_trans (scanFrom_fst_le g f l _) h1
      · exact ih (scanStep g f st q) r hr

/-- If no remaining candidate beats the recorded minimum gap by more than the
buffer, the state never changes again. -/
theorem scanFrom_noaccept (g : ℚ → ℚ) (f : ℚ → List ℚ) (l : List ℚ) (st : ScanState)
    (h : ∀ r ∈ l, st.1 ≤ g r + 1 / 100) :
    scanFrom g f l st = st := by
  induction l with
  | nil => rfl
  | cons q l ih =>
      have hq : ¬ (g q < st.1 - 1 / 100) := by
        have := h q (List.mem_cons_self q l)
        push_neg
        linarith
      rw [scanFrom_cons, scanStep, if_neg hq]
      exact ih (fun r hr => h r (List.mem_cons_of_mem q hr))

/-- The state always records the gap, rounded rate and funding vector of
some already-visited candidate satisfying an arbitrary invariant `P`. -/
theorem scanFrom_shape (g : ℚ → ℚ) (f : ℚ → List ℚ) (P : ℚ → Prop) (l : List ℚ)
    (st : ScanState) (h0 : ∃ p, P p ∧ st = (g p, round2 p, f p))
    (hl : ∀ q ∈ l, P q) :
    ∃ p, P p ∧ scanFrom g f l st = (g p, round2 p, f p) := by
  induction l generalizing st with
  | nil => exact h0
  | cons q l ih =>
      rw [scanFrom_cons]
      refine ih (scanStep g f st q) ?_ (fun r hr => hl r (List.mem_cons_of_mem q hr))
      unfold scanStep
      split
      · exact ⟨q, hl q (List.mem_cons_self q l), rfl⟩
      · exact h0

/-- Along a chain of candidates each beating the previous one by more than
the buffer, every step is accepted, so the state ends at the last candidate. -/
theorem scanFrom_chain (g : ℚ → ℚ) (f : ℚ → List ℚ) (p : ℚ) (l : List ℚ)
    (h : List.Chain (fun u v => g v < g u - 1 / 100) p l) :
    scanFrom g f l (g p, round2 p, f p) =
      (g (l.getLastD p), round2 (l.getLastD p), f (l.getLastD p)) := by
  induction l generalizing p with
  | nil => rfl
  | cons q l ih =>
      rcases List.chain_cons.mp h with ⟨h1, h2⟩
      have hstep : scanStep g f (g p, round2 p, f p) q = (g q, round2 q, f q) := by
        unfold scanStep
        rw [if_pos (by simpa using h1)]
      rw [scanFrom_cons, hstep, List.getLastD_cons]
      exact ih q h2

/-! ## Facts about the candidate grid -/

theorem round2_grid (k : ℕ) : round2 ((k : ℚ) / 100) = (k : ℚ) / 100 := by
  unfold round2
  have h : ((k : ℚ) / 100) * 100 = (k : ℚ) := by
    field_simp
  rw [h, round_natCast]
  push_cast
  ring

theorem ppValues_mem (k : ℕ) (hk : k ≤ 400000) : ((k : ℚ) / 100) ∈ ppValues := by
  unfold ppValues
  exact List.mem_map_of_mem _ (List.mem_range.mpr (by omega))

theorem ppValues_elim {p : ℚ} (hp : p ∈ ppValues) :
    ∃ k : ℕ, k ≤ 400000 ∧ p = (k : ℚ) / 100 := by
  simp only [ppValues, List.mem_map, List.mem_range] at hp
  rcases hp with ⟨k, hk, hkp⟩
  exact ⟨k, by omega, hkp.symm⟩

theorem four_thousand_mem_ppValues : (4000 : ℚ) ∈ ppValues := by
  have h := ppValues_mem 400000 le_rfl
  have he : ((400000 : ℕ) : ℚ) / 100 = 4000 := by norm_num
  rwa [he] at h

theorem ppValues_nonneg {p : ℚ} (hp : p ∈ ppValues) : 0 ≤ p := by
  rcases ppValues_elim hp with ⟨k, _, rfl⟩
  positivity

theorem ppValues_le {p : ℚ} (hp : p ∈ ppValues) : p ≤ 4000 := by
  rcases ppValues_elim hp with ⟨k, hk, rfl⟩
  have hkq : (k : ℚ) ≤ 400000 := by exact_mod_cast hk
  rw [div_le_iff₀ (by norm_num)]
  linarith

theorem round2_of_mem_ppValues {p : ℚ} (hp : p ∈ ppValues) : round2 p = p := by
  rcases ppValues_elim hp with ⟨k, _, rfl⟩
  exact round2_grid k

theorem ppValues_pairwise : List.Pairwise (· ≤ ·) ppValues := by
  unfold ppValues
  refine List.Pairwise.map _ (fun a b hab => ?_) (List.pairwise_lt_range 400001)
  have hq : (a : ℚ) ≤ (b : ℚ) := by exact_mod_cast Nat.le_of_lt hab
  linarith

/-- Splitting the grid after index `K`. -/
theorem ppValues_split (K : ℕ) (hK : K ≤ 400000) :
    ppValues = ((List.range' 0 (K + 1)).map (fun k : ℕ => (k : ℚ) / 100))
      ++ ((List.range' (K + 1) (400000 - K)).map (fun k : ℕ => (k : ℚ) / 100)) := by
  rw [ppValues, List.range_eq_range', ← List.map_append]
  have h := List.range'_append 0 (K + 1) (400000 - K) 1
  simp only [Nat.mul_one, Nat.zero_add, Nat.one_mul] at h
  rw [show (400000 - K) + (K + 1) = 400001 by omega] at h
  rw [h]

/-- The mapped index block `a+1, …, a+n` ends at `a+n`. -/
theorem getLastD_grid_block (a n : ℕ) :
    (((List.range' (a + 1) n).map (fun k : ℕ => (k : ℚ) / 100)).getLastD ((a : ℚ) / 100))
      = (((a + n : ℕ) : ℚ)) / 100 := by
  induction n generalizing a with
  | zero => simp
  | succ n ih =>
      rw [List.range'_succ, List.map_cons, List.getLastD_cons]
      have h := ih (a + 1)
      rw [show a + 1 + n = a + (n + 1) by omega] at h
      exact h

/-- If consecutive grid gaps drop by more than the buffer along a block of
indices, the block forms an acceptance chain. -/
theorem chain_grid (g : ℚ → ℚ) (a n : ℕ)
    (h : ∀ j : ℕ, j < n → g (((a + j + 1 : ℕ) : ℚ) / 100) < g (((a + j : ℕ) : ℚ) / 100) - 1 / 100) :
    List.Chain (fun u v => g v < g u - 1 / 100) ((a : ℚ) / 100)
      ((List.range' (a + 1) n).map (fun k : ℕ => (k : ℚ) / 100)) := by
  induction n generalizing a with
  | zero => exact List.Chain.nil
  | succ n ih =>
      rw [List.range'_succ, List.map_cons]
      refine List.Chain.cons ?_ ?_
      · have h0 := h 0 (by omega)
        simpa using h0
      · have htail := ih (a + 1) (fun j hj => by
          have hj1 := h (j + 1) (by omega)
          rw [show a + (j + 1) + 1 = a + 1 + j + 1 by omega,
            show a + (j + 1) = a + 1 + j by omega] at hj1
          exact hj1)
        exact htail

/-- Master evaluation lemma for the scan: if the gap strictly improves by
more than the buffer at every step up to grid index `K`, and from index `K`
no later grid point beats the gap at `K` by more than the buffer, then the
scan ends exactly at grid index `K`. -/
theorem scan_run_exact (g : ℚ → ℚ) (f : ℚ → List ℚ) (K : ℕ) (hK : K ≤ 400000)
    (hchain : ∀ j : ℕ, j < K → g (((j + 1 : ℕ) : ℚ) / 100) < g (((j : ℕ) : ℚ) / 100) - 1 / 100)
    (hafter : ∀ k : ℕ, K < k → k ≤ 400000 → g (((K : ℕ) : ℚ) / 100) ≤ g ((k : ℚ) / 100) + 1 / 100) :
    ppValues.foldl (scanOpt g f) none =
      some (g ((K : ℚ) / 100), (K : ℚ) / 100, f ((K : ℚ) / 100)) := by
  rw [ppValues_split K hK]
  have hpre : List.range' 0 (K + 1) = 0 :: List.range' 1 K := by
    simpa using List.range'_succ 0 K 1
  rw [hpre, List.map_cons, List.foldl_append]
  have hzero : ((0 : ℕ) : ℚ) / 100 = ((0 : ℚ) / 100) := by norm_num
  rw [foldl_scanOpt_cons]
  have hchain0 : List.Chain (fun u v => g v < g u - 1 / 100) (((0 : ℕ) : ℚ) / 100)
      ((List.range' (0 + 1) K).map (fun k : ℕ => (k : ℚ) / 100)) :=
    chain_grid g 0 K (fun j hj => by
      have := hchain j hj
      simpa using this)
  have hrun := scanFrom_chain g f (((0 : ℕ) : ℚ) / 100) _ hchain0
  have hlast : (((List.range' (0 + 1) K).map (fun k : ℕ => (k : ℚ) / 100)).getLastD
      (((0 : ℕ) : ℚ) / 100)) = ((K : ℚ)) / 100 := by
    have := getLastD_grid_block 0 K
    simpa using this
  rw [hlast] at hrun
  have hcast0 : ((0 : ℚ) / 100) = (((0 : ℕ) : ℚ) / 100) := by norm_num
  rw [show ((0 : ℕ) : ℚ) = (0 : ℚ) from by norm_num] at hrun ⊢
  rw [hrun]
  have hnoacc : scanFrom g f
      ((List.range' (K + 1) (400000 - K)).map (fun k : ℕ => (k : ℚ) / 100))
      (g ((K : ℚ) / 100), round2 ((K : ℚ) / 100), f ((K : ℚ) / 100)) =
      (g ((K : ℚ) / 100), round2 ((K : ℚ) / 100), f ((K : ℚ) / 100)) := by
    apply scanFrom_noaccept
    intro r hr
    rcases List.mem_map.mp hr with ⟨k, hk, rfl⟩
    rcases List.mem_range'_1.mp hk with ⟨hk1, hk2⟩
    exact hafter k (by omega) (by omega)
  rw [foldl_scanOpt_some, hnoacc, round2_grid]

/-! ## Structure of the solver's result -/

theorem ppValues_cons :
    ppValues = (((0 : ℕ) : ℚ) / 100)
      :: (List.range' 1 400000).map (fun k : ℕ => (k : ℚ) / 100) := by
  rw [ppValues, List.range_eq_range']
  have h : List.range' 0 400001 = 0 :: List.range' 1 400000 := by
    simpa using List.range'_succ 0 400000 1
  rw [h, List.map_cons]

/-- Every candidate visited by the scan is a grid point; the final state is
the gap, rate and funding vector of one of them, and its recorded gap is
within the buffer of the gap at every grid point. -/
theorem scan_structure (g : ℚ → ℚ) (f : ℚ → List ℚ) :
    ∃ p ∈ ppValues,
      ppValues.foldl (scanOpt g f) none = some (g p, round2 p, f p) ∧
      ∀ r ∈ ppValues, g p ≤ g r + 1 / 100 := by
  have hcons := ppValues_cons
  generalize htl : (List.range' 1 400000).map (fun k : ℕ => (k : ℚ) / 100) = tl at hcons
  generalize hq0 : (((0 : ℕ) : ℚ) / 100) = p0 at hcons
  have hmem0 : p0 ∈ ppValues := by
    rw [hcons]
    exact List.mem_cons_self _ _
  have hmemtail : ∀ q ∈ tl, q ∈ ppValues := by
    intro q hq
    rw [hcons]
    exact List.mem_cons_of_mem _ hq
  rcases scanFrom_shape g f (· ∈ ppValues) tl (g p0, round2 p0, f p0)
      ⟨p0, hmem0, rfl⟩ hmemtail with ⟨p, hp, hshape⟩
  refine ⟨p, hp, ?_, ?_⟩
  · rw [hcons, foldl_scanOpt_cons, hshape]
  · intro r hr
    have hgp : (scanFrom g f tl (g p0, round2 p0, f p0)).1 = g p := by
      rw [hshape]
    rw [hcons] at hr
    rcases List.mem_cons.mp hr with rfl | hr
    · have h1 : g p ≤ g r := by
        rw [← hgp]
        exact scanFrom_fst_le g f tl (g r, round2 r, f r)
      linarith
    · have h2 := scanFrom_fst_le_gap g f tl (g p0, round2 p0, f p0) r hr
      rw [hgp] at h2
      exact h2

/-- For a nonempty database the solver returns `Except.ok` with the fields
of `app.py` lines 45-52: the chosen grid rate, its funding vector, and the
echoed parameters. -/
theorem solver_ok (database : List Recipient)
    (total_funding base_funding unincorporated_funding cap : ℚ)
    (hne : database ≠ []) :
    ∃ p ∈ ppValues,
      optimize_per_person_funding_enum database total_funding base_funding
          unincorporated_funding cap =
        Except.ok
          ({ rows := database
             per_person_rate := p
             per_center_funding := fundingVec database base_funding unincorporated_funding cap p
             total_funding_col := total_funding
             base_funding_col := base_funding
             unincorporated_funding_col := unincorporated_funding
             global_cap_col := sentinelize cap }, p) ∧
      ∀ r ∈ ppValues,
        gapF database total_funding base_funding unincorporated_funding cap p ≤
          gapF database total_funding base_funding unincorporated_funding cap r + 1 / 100 := by
  rcases scan_structure
      (gapF database total_funding base_funding unincorporated_funding cap)
      (fundingVec database base_funding unincorporated_funding cap) with ⟨p, hp, hscan, hopt⟩
  refine ⟨p, hp, ?_, hopt⟩
  unfold optimize_per_person_funding_enum
  rw [if_neg hne, hscan, round2_of_mem_ppValues hp]

/-! ## Algebraic facts about the capped-affine formula -/

/-- The effective cap of a single row. -/
def capRow (cap : ℚ) (r : Recipient) : ℚ :=
  min (sentinelize (r.per_center_cap.getD 0)) (sentinelize cap)

theorem capsOf_eq_map (database : List Recipient) (cap : ℚ) :
    capsOf database cap = database.map (capRow cap) := rfl

theorem fundingVec_eq_map (database : List Recipient) (b u c PP : ℚ) :
    fundingVec database b u c PP =
      database.map
        (fun r => min (b + u * r.incentive + PP * r.people_served) (capRow c r)) := by
  rw [fundingVec, capsOf_eq_map, List.zipWith_map_right, List.zipWith_same]
  rfl

theorem gapF_nonneg (database : List Recipient) (t b u c q : ℚ) :
    0 ≤ gapF database t b u c q :=
  abs_nonneg _

/-- Every funding value is pointwise below its effective cap. -/
theorem fundingVec_le_caps (database : List Recipient) (b u c PP : ℚ) :
    List.Forall₂ (· ≤ ·) (fundingVec database b u c PP) (capsOf database c) := by
  rw [fundingVec_eq_map, capsOf_eq_map, List.forall₂_map_right_iff,
    List.forall₂_map_left_iff]
  exact List.forall₂_same.mpr (fun r hr => min_le_right _ _)

/-- The aggregate never exceeds the sum of the effective caps. -/
theorem aggF_le_capsSum (database : List Recipient) (b u c PP : ℚ) :
    aggF database b u c PP ≤ (capsOf database c).sum := by
  rw [aggF, fundingVec_eq_map, capsOf_eq_map]
  exact List.sum_le_sum (fun r hr => min_le_right _ _)

/-- Monotonicity of the aggregate in the rate, given nonnegative
`people_served` columns. -/
theorem aggF_mono (database : List Recipient) (b u c : ℚ) {q1 q2 : ℚ}
    (hx : ∀ r ∈ database, 0 ≤ r.people_served) (h : q1 ≤ q2) :
    aggF database b u c q1 ≤ aggF database b u c q2 := by
  rw [aggF, aggF, fundingVec_eq_map, fundingVec_eq_map]
  refine List.sum_le_sum (fun r hr => ?_)
  have hxr := hx r hr
  refine min_le_min (by nlinarith) le_rfl

/-! ## Scenario databases and their exact runs -/

/-- The spec's worked scenario: `people_served = [100, 200, 50]`, all
incentives zero, no per-center caps. -/
def db9 : List Recipient := [⟨100, 0, none⟩, ⟨200, 0, none⟩, ⟨50, 0, none⟩]

theorem fundingVec_db9 (q : ℚ) (h1 : q ≤ 4000) :
    fundingVec db9 0 0 0 q = [q * 100, q * 200, q * 50] := by
  simp only [fundingVec, db9, capsOf, fundingRow, sentinelize, SENTINEL, Option.getD,
    List.map_cons, List.map_nil, List.zipWith_cons_cons, List.zipWith_nil_right,
    if_pos rfl]
  norm_num
  refine ⟨by linarith, by linarith, by linarith⟩

theorem gapF_db9 (q : ℚ) (h1 : q ≤ 4000) :
    gapF db9 3500 0 0 0 q = |3500 - 350 * q| := by
  rw [gapF, aggF, fundingVec_db9 q h1]
  norm_num
  ring_nf

theorem chain_db9 : ∀ j : ℕ, j < 1000 →
    gapF db9 3500 0 0 0 (((j + 1 : ℕ) : ℚ) / 100) <
      gapF db9 3500 0 0 0 (((j : ℕ) : ℚ) / 100) - 1 / 100 := by
  intro j hj
  have hj9 : ((j : ℚ)) ≤ 999 := by exact_mod_cast Nat.lt_succ_iff.mp hj
  have hj0 : (0 : ℚ) ≤ (j : ℚ) := by positivity
  have e1 : ((j + 1 : ℕ) : ℚ) = (j : ℚ) + 1 := by push_cast; ring
  rw [e1, gapF_db9 _ (by linarith), gapF_db9 _ (by linarith)]
  rw [abs_of_nonneg (by linarith), abs_of_nonneg (by linarith)]
  linarith

theorem after_db9 : ∀ k : ℕ, 1000 < k → k ≤ 400000 →
    gapF db9 3500 0 0 0 (((1000 : ℕ) : ℚ) / 100) ≤
      gapF db9 3500 0 0 0 ((k : ℚ) / 100) + 1 / 100 := by
  intro k hk1 hk2
  have h10 : (((1000 : ℕ) : ℚ) / 100) = 10 := by norm_num
  rw [h10, gapF_db9 10 (by norm_num)]
  have := gapF_nonneg db9 3500 0 0 0 ((k : ℚ) / 100)
  norm_num
  linarith

/-- Output row block for the scenario run. -/
def out9 : OutputTable :=
  { rows := db9
    per_person_rate := 10
    per_center_funding := [1000, 2000, 500]
    total_funding_col := 3500
    base_funding_col := 0
    unincorporated_funding_col := 0
    global_cap_col := SENTINEL }

/-- Exact evaluation of the solver on the spec's worked scenario. -/
theorem run_db9 :
    optimize_per_person_funding_enum db9 3500 0 0 0 = Except.ok (out9, 10) := by
  have hscan := scan_run_exact (gapF db9 3500 0 0 0) (fundingVec db9 0 0 0) 1000
    (by omega) chain_db9 after_db9
  have hc : ((1000 : ℕ) : ℚ) / 100 = 10 := by norm_num
  rw [hc] at hscan
  have hg : gapF db9 3500 0 0 0 10 = 0 := by
    rw [gapF_db9 10 (by norm_num)]
    norm_num
  have hf : fundingVec db9 0 0 0 10 = [1000, 2000, 500] := by
    rw [fundingVec_db9 10 (by norm_num)]
    norm_num
  rw [hg, hf] at hscan
  unfold optimize_per_person_funding_enum
  rw [if_neg (by simp [db9]), hscan]
  simp [out9, sentinelize, SENTINEL]

/-- The funding vector of a one-recipient table, by unfolding. -/
theorem fundingVec_singleton (x y : ℚ) (pcc : Option ℚ) (b u c q : ℚ) :
    fundingVec [⟨x, y, pcc⟩] b u c q =
      [min (b + u * y + q * x) (min (sentinelize (pcc.getD 0)) (sentinelize c))] := rfl

/-- The gap of a one-recipient table, by unfolding. -/
theorem gapF_singleton (x y : ℚ) (pcc : Option ℚ) (t b u c q : ℚ) :
    gapF [⟨x, y, pcc⟩] t b u c q =
      |t - min (b + u * y + q * x)
        (min (sentinelize (pcc.getD 0)) (sentinelize c))| := by
  rw [gapF, aggF, fundingVec_singleton]
  simp

/-- One uncapped recipient serving 1000 people; target 3505 is reached only
strictly between two grid points. -/
def db1 : List Recipient := [⟨1000, 0, none⟩]

theorem gapF_db1 (q : ℚ) (h1 : q ≤ 4000) :
    gapF db1 3505 0 0 0 q = |3505 - q * 1000| := by
  simp only [db1]
  rw [gapF_singleton]
  norm_num [sentinelize, SENTINEL]
  rw [min_eq_left (by linarith)]

theorem chain_db1 : ∀ j : ℕ, j < 350 →
    gapF db1 3505 0 0 0 (((j + 1 : ℕ) : ℚ) / 100) <
      gapF db1 3505 0 0 0 (((j : ℕ) : ℚ) / 100) - 1 / 100 := by
  intro j hj
  have hj9 : ((j : ℚ)) ≤ 349 := by exact_mod_cast Nat.lt_succ_iff.mp hj
  have hj0 : (0 : ℚ) ≤ (j : ℚ) := by positivity
  have e1 : ((j + 1 : ℕ) : ℚ) = (j : ℚ) + 1 := by push_cast; ring
  rw [e1, gapF_db1 _ (by linarith), gapF_db1 _ (by linarith)]
  rw [abs_of_nonneg (by linarith), abs_of_nonneg (by linarith)]
  linarith

theorem after_db1 : ∀ k : ℕ, 350 < k → k ≤ 400000 →
    gapF db1 3505 0 0 0 (((350 : ℕ) : ℚ) / 100) ≤
      gapF db1 3505 0 0 0 ((k : ℚ) / 100) + 1 / 100 := by
  intro k hk1 hk2
  have hkq : (351 : ℚ) ≤ (k : ℚ) := by exact_mod_cast hk1
  have hkq2 : ((k : ℚ)) ≤ 400000 := by exact_mod_cast hk2
  have h35 : (((350 : ℕ) : ℚ) / 100) = 7 / 2 := by norm_num
  rw [h35, gapF_db1 (7 / 2) (by norm_num), gapF_db1 _ (by linarith)]
  rw [abs_of_nonneg (by norm_num), abs_of_nonpos (by linarith)]
  linarith

def out1 : OutputTable :=
  { rows := db1
    per_person_rate := 7 / 2
    per_center_funding := [3500]
    total_funding_col := 3505
    base_funding_col := 0
    unincorporated_funding_col := 0
    global_cap_col := SENTINEL }

/-- Exact evaluation: with target 3505 and slope 1000, the scan stops at
rate 3.50 with a residual gap of 5. -/
theorem run_db1 :
    optimize_per_person_funding_enum db1 3505 0 0 0 = Except.ok (out1, 7 / 2) := by
  have hscan := scan_run_exact (gapF db1 3505 0 0 0) (fundingVec db1 0 0 0) 350
    (by omega) chain_db1 after_db1
  have hc : ((350 : ℕ) : ℚ) / 100 = 7 / 2 := by norm_num
  rw [hc] at hscan
  have hg : gapF db1 3505 0 0 0 (7 / 2) = 5 := by
    rw [gapF_db1 (7 / 2) (by norm_num)]
    norm_num
  have hf : fundingVec db1 0 0 0 (7 / 2) = [3500] := by
    simp only [db1]
    rw [fundingVec_singleton]
    norm_num [sentinelize, SENTINEL]
  rw [hg, hf] at hscan
  unfold optimize_per_person_funding_enum
  rw [if_neg (by simp [db1]), hscan]
  simp [out1, db1, sentinelize, SENTINEL]

/-- One recipient with per-center cap 5 and slope 2; target 100 is far above
the reachable total of 5, so the target is saturated. -/
def db2 : List Recipient := [⟨2, 0, some 5⟩]

theorem caps_db2 : capsOf db2 0 = [5] := by
  norm_num [capsOf, db2, sentinelize, SENTINEL, min_def]

theorem gapF_db2_lo (q : ℚ) (h1 : q ≤ 5 / 2) : gapF db2 100 0 0 0 q = 100 - q * 2 := by
  simp only [db2]
  rw [gapF_singleton]
  norm_num [sentinelize, SENTINEL]
  rw [min_eq_left (by linarith), abs_of_nonneg (by linarith)]

theorem gapF_db2_hi (q : ℚ) (h1 : 5 / 2 ≤ q) : gapF db2 100 0 0 0 q = 95 := by
  simp only [db2]
  rw [gapF_singleton]
  norm_num [sentinelize, SENTINEL]
  rw [min_eq_right (by linarith)]
  norm_num

theorem chain_db2 : ∀ j : ℕ, j < 250 →
    gapF db2 100 0 0 0 (((j + 1 : ℕ) : ℚ) / 100) <
      gapF db2 100 0 0 0 (((j : ℕ) : ℚ) / 100) - 1 / 100 := by
  intro j hj
  have hj9 : ((j : ℚ)) ≤ 249 := by exact_mod_cast Nat.lt_succ_iff.mp hj
  have hj0 : (0 : ℚ) ≤ (j : ℚ) := by positivity
  have e1 : ((j + 1 : ℕ) : ℚ) = (j : ℚ) + 1 := by push_cast; ring
  rw [e1, gapF_db2_lo _ (by linarith), gapF_db2_lo _ (by linarith)]
  linarith

theorem after_db2 : ∀ k : ℕ, 250 < k → k ≤ 400000 →
    gapF db2 100 0 0 0 (((250 : ℕ) : ℚ) / 100) ≤
      gapF db2 100 0 0 0 ((k : ℚ) / 100) + 1 / 100 := by
  intro k hk1 hk2
  have hkq : (251 : ℚ) ≤ (k : ℚ) := by exact_mod_cast hk1
  have h25 : (((250 : ℕ) : ℚ) / 100) = 5 / 2 := by norm_num
  rw [h25, gapF_db2_lo (5 / 2) (by norm_num), gapF_db2_hi _ (by linarith)]
  norm_num

def out2 : OutputTable :=
  { rows := db2
    per_person_rate := 5 / 2
    per_center_funding := [5]
    total_funding_col := 100
    base_funding_col := 0
    unincorporated_funding_col := 0
    global_cap_col := SENTINEL }

/-- Exact evaluation: once the cap binds (rate 2.50), the gap is constant,
so the scan never moves again; the returned rate is 2.50, not 4000. -/
theorem run_db2 :
    optimize_per_person_funding_enum db2 100 0 0 0 = Except.ok (out2, 5 / 2) := by
  have hscan := scan_run_exact (gapF db2 100 0 0 0) (fundingVec db2 0 0 0) 250
    (by omega) chain_db2 after_db2
  have hc : ((250 : ℕ) : ℚ) / 100 = 5 / 2 := by norm_num
  rw [hc] at hscan
  have hg : gapF db2 100 0 0 0 (5 / 2) = 95 := by
    rw [gapF_db2_lo (5 / 2) (by norm_num)]
    norm_num
  have hf : fundingVec db2 0 0 0 (5 / 2) = [5] := by
    simp only [db2]
    rw [fundingVec_singleton]
    norm_num [sentinelize, SENTINEL, min_def]
  rw [hg, hf] at hscan
  unfold optimize_per_person_funding_enum
  rw [if_neg (by simp [db2]), hscan]
  simp [out2, db2, sentinelize, SENTINEL]

/-- One recipient with per-center cap 5.01 and slope 2; the cap starts to
bind strictly between grid points 2.50 and 2.51, so the scan gets stuck one
step before the flat region of minimal gap. -/
def db4 : List Recipient := [⟨2, 0, some (501 / 100)⟩]

theorem gapF_db4_lo (q : ℚ) (h1 : q ≤ 5 / 2) :
    gapF db4 (601 / 100) 0 0 0 q = 601 / 100 - q * 2 := by
  simp only [db4]
  rw [gapF_singleton]
  norm_num [sentinelize, SENTINEL]
  rw [min_eq_left (by linarith), abs_of_nonneg (by linarith)]

theorem gapF_db4_hi (q : ℚ) (h1 : 251 / 100 ≤ q) :
    gapF db4 (601 / 100) 0 0 0 q = 1 := by
  simp only [db4]
  rw [gapF_singleton]
  norm_num [sentinelize, SENTINEL]
  rw [min_eq_right (by linarith)]
  norm_num

theorem gapF_db4_ge_one (q : ℚ) : 1 ≤ gapF db4 (601 / 100) 0 0 0 q := by
  simp only [db4]
  rw [gapF_singleton]
  have hm : min ((0 : ℚ) + 0 * 0 + q * 2) (min (sentinelize ((some (501 / 100 : ℚ)).getD 0)) (sentinelize 0)) ≤ 501 / 100 := by
    norm_num [sentinelize, SENTINEL]
  refine le_trans ?_ (le_abs_self _)
  linarith

theorem chain_db4 : ∀ j : ℕ, j < 250 →
    gapF db4 (601 / 100) 0 0 0 (((j + 1 : ℕ) : ℚ) / 100) <
      gapF db4 (601 / 100) 0 0 0 (((j : ℕ) : ℚ) / 100) - 1 / 100 := by
  intro j hj
  have hj9 : ((j : ℚ)) ≤ 249 := by exact_mod_cast Nat.lt_succ_iff.mp hj
  have hj0 : (0 : ℚ) ≤ (j : ℚ) := by positivity
  have e1 : ((j + 1 : ℕ) : ℚ) = (j : ℚ) + 1 := by push_cast; ring
  rw [e1, gapF_db4_lo _ (by linarith), gapF_db4_lo _ (by linarith)]
  linarith

theorem after_db4 : ∀ k : ℕ, 250 < k → k ≤ 400000 →
    gapF db4 (601 / 100) 0 0 0 (((250 : ℕ) : ℚ) / 100) ≤
      gapF db4 (601 / 100) 0 0 0 ((k : ℚ) / 100) + 1 / 100 := by
  intro k hk1 hk2
  have hkq : (251 : ℚ) ≤ (k : ℚ) := by exact_mod_cast hk1
  have h25 : (((250 : ℕ) : ℚ) / 100) = 5 / 2 := by norm_num
  rw [h25, gapF_db4_lo (5 / 2) (by norm_num), gapF_db4_hi _ (by linarith)]
  norm_num

def out4 : OutputTable :=
  { rows := db4
    per_person_rate := 5 / 2
    per_center_funding := [5]
    total_funding_col := 601 / 100
    base_funding_col := 0
    unincorporated_funding_col := 0
    global_cap_col := SENTINEL }

/-- Exact evaluation: the scan stops at rate 2.50 with gap 1.01, even though
every grid rate from 2.51 on achieves the strictly smaller gap 1. -/
theorem run_db4 :
    optimize_per_person_funding_enum db4 (601 / 100) 0 0 0 = Except.ok (out4, 5 / 2) := by
  have hscan := scan_run_exact (gapF db4 (601 / 100) 0 0 0) (fundingVec db4 0 0 0) 250
    (by omega) chain_db4 after_db4
  have hc : ((250 : ℕ) : ℚ) / 100 = 5 / 2 := by norm_num
  rw [hc] at hscan
  have hg : gapF db4 (601 / 100) 0 0 0 (5 / 2) = 101 / 100 := by
    rw [gapF_db4_lo (5 / 2) (by norm_num)]
    norm_num
  have hf : fundingVec db4 0 0 0 (5 / 2) = [5] := by
    simp only [db4]
    rw [fundingVec_singleton]
    norm_num [sentinelize, SENTINEL, min_def]
  rw [hg, hf] at hscan
  unfold optimize_per_person_funding_enum
  rw [if_neg (by simp [db4]), hscan]
  simp [out4, db4, sentinelize, SENTINEL]

/-- Helper: the solver's output determined by a computed scan result. -/
theorem solver_eq_of_scan (database : List Recipient) (t b u c m bp2 : ℚ) (bf : List ℚ)
    (hne : database ≠ [])
    (hfold : ppValues.foldl
        (scanOpt (gapF database t b u c) (fundingVec database b u c)) none =
      some (m, bp2, bf)) :
    optimize_per_person_funding_enum database t b u c =
      Except.ok
        ({ rows := database
           per_person_rate := bp2
           per_center_funding := bf
           total_funding_col := t
           base_funding_col := b
           unincorporated_funding_col := u
           global_cap_col := sentinelize c }, bp2) := by
  unfold optimize_per_person_funding_enum
  rw [if_neg hne, hfold]

/-! ## The claims -/

/-- C3: for the empty recipient set the solver fails explicitly (the pandas
frame built from an empty record list has no columns, so the column access
raises) rather than returning a rate and an allocation table. -/
theorem C3_empty_input_fails
    (total_funding base_funding unincorporated_funding cap : ℚ) :
    optimize_per_person_funding_enum [] total_funding base_funding
        unincorporated_funding cap =
      Except.error "KeyError: people_served" := rfl

/-- C9: on the spec's worked scenario (`people_served = [100, 200, 50]`, all
other drivers zero, no caps, target 3500) the solver returns the rate 10
exactly and the allocations [1000, 2000, 500] exactly. -/
theorem C9_worked_scenario :
    optimize_per_person_funding_enum db9 3500 0 0 0 = Except.ok (out9, 10) ∧
    out9.per_person_rate = 10 ∧
    out9.per_center_funding = [1000, 2000, 500] :=
  ⟨run_db9, rfl, rfl⟩

/-- C1 (amended): the returned gap is within the 0.01 tolerance of the
minimal gap over the scanned grid `{k/100 : 0 ≤ k ≤ 400000}` — not over the
whole real interval `[0, RATE_MAX]`, where the true minimum can be missed by
up to half a grid step times the total slope. -/
theorem C1_within_tolerance_of_grid_minimum (database : List Recipient)
    (total_funding base_funding unincorporated_funding cap : ℚ)
    (out : OutputTable) (bp : ℚ)
    (hne : database ≠ [])
    (hok : optimize_per_person_funding_enum database total_funding base_funding
        unincorporated_funding cap = Except.ok (out, bp)) :
    ∀ r ∈ ppValues,
      |total_funding - out.per_center_funding.sum| ≤
        gapF database total_funding base_funding unincorporated_funding cap r + 1 / 100 := by
  rcases solver_ok database total_funding base_funding unincorporated_funding cap hne with
    ⟨p, hp, heq, hopt⟩
  have hinj := heq.symm.trans hok
  rw [Except.ok.injEq, Prod.mk.injEq] at hinj
  obtain ⟨hout, hbp⟩ := hinj
  intro r hr
  have hr2 := hopt r hr
  rw [← hout]
  simp only [gapF, aggF] at hr2 ⊢
  exact hr2

/-- Witness for C1's amended theorem, on the worked scenario. -/
theorem C1_within_tolerance_of_grid_minimum_witness :
    db9 ≠ [] ∧
    optimize_per_person_funding_enum db9 3500 0 0 0 = Except.ok (out9, 10) ∧
    (∀ r ∈ ppValues,
      |(3500 : ℚ) - out9.per_center_funding.sum| ≤ gapF db9 3500 0 0 0 r + 1 / 100) :=
  ⟨by simp [db9], run_db9,
    C1_within_tolerance_of_grid_minimum db9 3500 0 0 0 out9 10 (by simp [db9]) run_db9⟩

/-- C1 is false as stated: with one recipient of slope 1000 and target 3505,
the rate 3.505 ∈ [0, 4000] achieves gap 0, but the solver's returned gap is
5, far beyond the 0.01 tolerance of the true minimum. -/
theorem C1_counterexample :
    optimize_per_person_funding_enum db1 3505 0 0 0 = Except.ok (out1, 7 / 2) ∧
    |(3505 : ℚ) - out1.per_center_funding.sum| = 5 ∧
    (0 : ℚ) ≤ 3505 / 1000 ∧ (3505 / 1000 : ℚ) ≤ 4000 ∧
    gapF db1 3505 0 0 0 (3505 / 1000) = 0 ∧
    ¬ (|(3505 : ℚ) - out1.per_center_funding.sum| ≤
        gapF db1 3505 0 0 0 (3505 / 1000) + 1 / 100) := by
  have hg : gapF db1 3505 0 0 0 (3505 / 1000) = 0 := by
    rw [gapF_db1 _ (by norm_num)]
    norm_num
  have hs : |(3505 : ℚ) - out1.per_center_funding.sum| = 5 := by
    simp only [out1]
    norm_num
  refine ⟨run_db1, hs, by norm_num, by norm_num, hg, ?_⟩
  rw [hs, hg]
  norm_num

/-- C2 (amended): when the target is at or above the sum of effective caps
(and `people_served` is nonnegative), the returned allocation total is within
0.01 of the best achievable total `F(RATE_MAX)` on both sides:
`F(RATE_MAX) - 0.01 ≤ Σ per_center_funding ≤ F(RATE_MAX)`.  The returned
rate need not be `RATE_MAX`, and the line-77 saturation warning fires only
when the returned rate is at least 3999.99. -/
theorem C2_saturation_bound (database : List Recipient)
    (total_funding base_funding unincorporated_funding cap : ℚ)
    (out : OutputTable) (bp : ℚ)
    (hne : database ≠ [])
    (hx : ∀ r ∈ database, 0 ≤ r.people_served)
    (hsat : (capsOf database cap).sum ≤ total_funding)
    (hok : optimize_per_person_funding_enum database total_funding base_funding
        unincorporated_funding cap = Except.ok (out, bp)) :
    aggF database base_funding unincorporated_funding cap RATE_MAX - 1 / 100 ≤
      out.per_center_funding.sum ∧
    out.per_center_funding.sum ≤
      aggF database base_funding unincorporated_funding cap RATE_MAX ∧
    (infeasibilityWarning bp = true → (399999 : ℚ) / 100 ≤ bp) := by
  rcases solver_ok database total_funding base_funding unincorporated_funding cap hne with
    ⟨p, hp, heq, hopt⟩
  have hinj := heq.symm.trans hok
  rw [Except.ok.injEq, Prod.mk.injEq] at hinj
  obtain ⟨hout, hbp⟩ := hinj
  have hsum : out.per_center_funding.sum =
      aggF database base_funding unincorporated_funding cap p := by
    rw [← hout]
    rfl
  refine ⟨?_, ?_, ?_⟩
  · have h4 := hopt RATE_MAX four_thousand_mem_ppValues
    have hle4 : aggF database base_funding unincorporated_funding cap RATE_MAX ≤
        (capsOf database cap).sum := aggF_le_capsSum database _ _ _ _
    have hlep : aggF database base_funding unincorporated_funding cap p ≤
        (capsOf database cap).sum := aggF_le_capsSum database _ _ _ _
    rw [gapF, gapF, abs_of_nonneg (by linarith), abs_of_nonneg (by linarith)] at h4
    rw [hsum]
    linarith
  · rw [hsum]
    exact aggF_mono database _ _ _ hx (ppValues_le hp)
  · intro hw
    unfold infeasibilityWarning at hw
    exact of_decide_eq_true hw

/-- Witness for C2's amended theorem, on the saturated one-recipient table. -/
theorem C2_saturation_bound_witness :
    db2 ≠ [] ∧ (∀ r ∈ db2, 0 ≤ r.people_served) ∧ (capsOf db2 0).sum ≤ 100 ∧
    optimize_per_person_funding_enum db2 100 0 0 0 = Except.ok (out2, 5 / 2) ∧
    (aggF db2 0 0 0 RATE_MAX - 1 / 100 ≤ out2.per_center_funding.sum ∧
      out2.per_center_funding.sum ≤ aggF db2 0 0 0 RATE_MAX ∧
      (infeasibilityWarning (5 / 2) = true → (399999 : ℚ) / 100 ≤ 5 / 2)) := by
  have hx : ∀ r ∈ db2, 0 ≤ r.people_served := by
    intro r hr
    simp only [db2, List.mem_cons, List.not_mem_nil, or_false] at hr
    rw [hr]
    norm_num
  exact ⟨by simp [db2], hx, by rw [caps_db2]; norm_num, run_db2,
    C2_saturation_bound db2 100 0 0 0 out2 (5 / 2) (by simp [db2]) hx
      (by rw [caps_db2]; norm_num) run_db2⟩

/-- C2 is false as stated: with one capped recipient (cap 5, slope 2) and
target 100 ≥ 5, the solver returns rate 2.5, not `RATE_MAX = 4000`, and the
saturation warning does not fire. -/
theorem C2_counterexample :
    (capsOf db2 0).sum ≤ 100 ∧
    optimize_per_person_funding_enum db2 100 0 0 0 = Except.ok (out2, 5 / 2) ∧
    (5 / 2 : ℚ) ≠ RATE_MAX ∧
    infeasibilityWarning (5 / 2) = false := by
  refine ⟨by rw [caps_db2]; norm_num, run_db2, by norm_num [RATE_MAX], ?_⟩
  norm_num [infeasibilityWarning]

theorem scanStep_accept (g : ℚ → ℚ) (f : ℚ → List ℚ) (st : ScanState) (PP : ℚ)
    (h : g PP < st.1 - 1 / 100) : scanStep g f st PP = (g PP, round2 PP, f PP) := by
  unfold scanStep
  rw [if_pos h]

theorem scanStep_reject (g : ℚ → ℚ) (f : ℚ → List ℚ) (st : ScanState) (PP : ℚ)
    (h : ¬ (g PP < st.1 - 1 / 100)) : scanStep g f st PP = st := by
  unfold scanStep
  rw [if_neg h]

/-- The scan never ends beyond a grid point of globally minimal gap: once the
first minimizer has been visited, no later candidate can still improve the
recorded gap by more than the buffer. -/
theorem scan_le_minimizer (g : ℚ → ℚ) (f : ℚ → List ℚ) (pstar : ℚ)
    (hmem : pstar ∈ ppValues)
    (hmin : ∀ r ∈ ppValues, g pstar ≤ g r) :
    ∃ p ∈ ppValues, p ≤ pstar ∧
      ppValues.foldl (scanOpt g f) none = some (g p, round2 p, f p) := by
  obtain ⟨l1, l2, hsplit⟩ := List.append_of_mem hmem
  have hpw := ppValues_pairwise
  rw [hsplit] at hpw
  rcases List.pairwise_append.mp hpw with ⟨-, -, hcross⟩
  have hl1le : ∀ q ∈ l1, q ≤ pstar := fun q hq => hcross q hq pstar (List.mem_cons_self _ _)
  have hl1mem : ∀ q ∈ l1, q ∈ ppValues := fun q hq => by
    rw [hsplit]
    exact List.mem_append_left _ hq
  have hl2min : ∀ r ∈ l2, g pstar ≤ g r := fun r hr => hmin r (by
    rw [hsplit]
    exact List.mem_append_right _ (List.mem_cons_of_mem _ hr))
  cases l1 with
  | nil =>
      refine ⟨pstar, hmem, le_rfl, ?_⟩
      have hcons : ppValues = pstar :: l2 := by simpa using hsplit
      rw [hcons, foldl_scanOpt_cons,
        scanFrom_noaccept g f l2 _ (by
          intro r hr
          have h1 := hl2min r hr
          show g pstar ≤ _
          linarith)]
  | cons p0 l1' =>
      have hcons : ppValues = p0 :: (l1' ++ pstar :: l2) := by simpa using hsplit
      obtain ⟨p, hP, hst1⟩ := scanFrom_shape g f (fun q => q ≤ pstar ∧ q ∈ ppValues) l1'
        (g p0, round2 p0, f p0)
        ⟨p0, ⟨hl1le p0 (List.mem_cons_self _ _), hl1mem p0 (List.mem_cons_self _ _)⟩, rfl⟩
        (fun q hq => ⟨hl1le q (List.mem_cons_of_mem _ hq), hl1mem q (List.mem_cons_of_mem _ hq)⟩)
      obtain ⟨hple, hpmem⟩ := hP
      by_cases hacc : g pstar < g p - 1 / 100
      · refine ⟨pstar, hmem, le_rfl, ?_⟩
        rw [hcons, foldl_scanOpt_cons, scanFrom_append, hst1, scanFrom_cons,
          scanStep_accept g f _ _ (by
            show g pstar < g p - 1 / 100
            exact hacc),
          scanFrom_noaccept g f l2 _ (by
            intro r hr
            have h1 := hl2min r hr
            show g pstar ≤ _
            linarith)]
      · refine ⟨p, hpmem, hple, ?_⟩
        have hple2 : g p ≤ g pstar + 1 / 100 := by
          push_neg at hacc
          linarith
        rw [hcons, foldl_scanOpt_cons, scanFrom_append, hst1, scanFrom_cons,
          scanStep_reject g f _ _ (by
            show ¬ (g pstar < g p - 1 / 100)
            exact hacc),
          scanFrom_noaccept g f l2 _ (by
            intro r hr
            have h1 := hl2min r hr
            show g p ≤ _
            linarith)]

/-- C4 (amended): the returned rate never exceeds any grid rate of minimal
gap — in particular it is at most the smallest such rate.  Because of the
0.01 acceptance buffer it can stop strictly below it, at a rate that does
not itself achieve the minimal gap, so "returns the smallest tying rate" is
false in general. -/
theorem C4_rate_le_any_grid_minimizer (database : List Recipient)
    (total_funding base_funding unincorporated_funding cap : ℚ)
    (out : OutputTable) (bp pstar : ℚ)
    (hne : database ≠ [])
    (hok : optimize_per_person_funding_enum database total_funding base_funding
        unincorporated_funding cap = Except.ok (out, bp))
    (hmem : pstar ∈ ppValues)
    (hmin : ∀ r ∈ ppValues,
      gapF database total_funding base_funding unincorporated_funding cap pstar ≤
        gapF database total_funding base_funding unincorporated_funding cap r) :
    bp ≤ pstar := by
  obtain ⟨p, hpmem, hple, hfold⟩ := scan_le_minimizer
    (gapF database total_funding base_funding unincorporated_funding cap)
    (fundingVec database base_funding unincorporated_funding cap) pstar hmem hmin
  have hsol := solver_eq_of_scan database total_funding base_funding unincorporated_funding cap
    _ _ _ hne hfold
  have h2 := hsol.symm.trans hok
  rw [Except.ok.injEq, Prod.mk.injEq] at h2
  rw [← h2.2, round2_of_mem_ppValues hpmem]
  exact hple

/-- Witness for C4's amended theorem, on the worked scenario whose unique
grid minimizer is 10. -/
theorem C4_rate_le_any_grid_minimizer_witness :
    db9 ≠ [] ∧ (10 : ℚ) ∈ ppValues ∧
    optimize_per_person_funding_enum db9 3500 0 0 0 = Except.ok (out9, 10) ∧
    (∀ r ∈ ppValues, gapF db9 3500 0 0 0 10 ≤ gapF db9 3500 0 0 0 r) ∧
    (10 : ℚ) ≤ 10 := by
  have hmem : (10 : ℚ) ∈ ppValues := by
    have h := ppValues_mem 1000 (by omega)
    have hc : ((1000 : ℕ) : ℚ) / 100 = 10 := by norm_num
    rwa [hc] at h
  have hmin : ∀ r ∈ ppValues, gapF db9 3500 0 0 0 10 ≤ gapF db9 3500 0 0 0 r := by
    intro r hr
    have h0 : gapF db9 3500 0 0 0 10 = 0 := by
      rw [gapF_db9 10 (by norm_num)]
      norm_num
    rw [h0]
    exact gapF_nonneg _ _ _ _ _ _
  exact ⟨by simp [db9], hmem, run_db9, hmin,
    C4_rate_le_any_grid_minimizer db9 3500 0 0 0 out9 10 10 (by simp [db9]) run_db9 hmem hmin⟩

/-- C4 is false as stated: with one recipient of slope 2 capped at 5.01 and
target 6.01, every grid rate from 2.51 up ties at the minimal gap 1 (so the
smallest tying rate is 2.51), yet the solver returns 2.50, whose own gap is
1.01. -/
theorem C4_counterexample :
    optimize_per_person_funding_enum db4 (601 / 100) 0 0 0 = Except.ok (out4, 5 / 2) ∧
    (251 / 100 : ℚ) ∈ ppValues ∧ (252 / 100 : ℚ) ∈ ppValues ∧
    gapF db4 (601 / 100) 0 0 0 (251 / 100) = 1 ∧
    gapF db4 (601 / 100) 0 0 0 (252 / 100) = 1 ∧
    (∀ r : ℚ, 1 ≤ gapF db4 (601 / 100) 0 0 0 r) ∧
    gapF db4 (601 / 100) 0 0 0 (5 / 2) = 101 / 100 ∧
    (5 / 2 : ℚ) ≠ 251 / 100 ∧ (5 / 2 : ℚ) < 251 / 100 := by
  have hm1 : (251 / 100 : ℚ) ∈ ppValues := by
    have h := ppValues_mem 251 (by omega)
    have hc : ((251 : ℕ) : ℚ) / 100 = 251 / 100 := by norm_num
    rwa [hc] at h
  have hm2 : (252 / 100 : ℚ) ∈ ppValues := by
    have h := ppValues_mem 252 (by omega)
    have hc : ((252 : ℕ) : ℚ) / 100 = 252 / 100 := by norm_num
    rwa [hc] at h
  refine ⟨run_db4, hm1, hm2, ?_, ?_, gapF_db4_ge_one, ?_, by norm_num, by norm_num⟩
  · exact gapF_db4_hi _ (by norm_num)
  · exact gapF_db4_hi _ (by norm_num)
  · rw [gapF_db4_lo (5 / 2) (by norm_num)]
    norm_num

/-- C5 (amended): the code's effective cap is
`min(per_center_cap or 10^12, global_cap or 10^12)` — "unbounded" is the
finite sentinel `10^12`, not a true `+∞`.  Below the sentinel the two
readings agree, and the three concrete precedence instances hold exactly as
claimed. -/
theorem C5_cap_precedence :
    (∀ (r : Recipient) (gcap : ℚ),
      capsOf [r] gcap =
        [min (sentinelize (r.per_center_cap.getD 0)) (sentinelize gcap)]) ∧
    (∀ (pcc : Option ℚ) (gcap : ℚ), pcc.getD 0 < SENTINEL → gcap < SENTINEL →
      (specEffectiveCap pcc gcap).getD SENTINEL =
        min (sentinelize (pcc.getD 0)) (sentinelize gcap)) ∧
    capsOf [⟨0, 0, some 5000⟩] 3000 = [3000] ∧
    capsOf [⟨0, 0, some 0⟩] 3000 = [3000] ∧
    capsOf [⟨0, 0, none⟩] 3000 = [3000] ∧
    capsOf [⟨0, 0, some 5000⟩] 0 = [5000] := by
  refine ⟨fun r gcap => rfl, ?_, ?_, ?_, ?_, ?_⟩
  · intro pcc gcap h1 h2
    unfold specEffectiveCap sentinelize
    by_cases hp : pcc.getD 0 = 0 <;> by_cases hg : gcap = 0
    · simp only [if_pos hp, if_pos hg]
      exact (min_self _).symm
    · simp only [if_pos hp, if_neg hg]
      exact (min_eq_right (le_of_lt h2)).symm
    · simp only [if_neg hp, if_pos hg]
      exact (min_eq_left (le_of_lt h1)).symm
    · simp only [if_neg hp, if_neg hg]
      rfl
  · norm_num [capsOf, sentinelize, SENTINEL, min_def]
  · norm_num [capsOf, sentinelize, SENTINEL, min_def]
  · norm_num [capsOf, sentinelize, SENTINEL, min_def]
  · norm_num [capsOf, sentinelize, SENTINEL, min_def]

/-- C5 is false as stated: a per-center cap of `2·10^12` with an unbounded
(zero) global cap yields the effective cap `10^12` — the sentinel, not the
supplied per-center cap that a genuine "min with +∞" would give. -/
theorem C5_counterexample :
    capsOf [⟨0, 0, some 2000000000000⟩] 0 = [1000000000000] ∧
    specEffectiveCap (some 2000000000000) 0 = some 2000000000000 ∧
    (1000000000000 : ℚ) ≠ 2000000000000 := by
  refine ⟨?_, ?_, by norm_num⟩
  · norm_num [capsOf, sentinelize, SENTINEL, min_def]
  · norm_num [specEffectiveCap]

/-- C6: for every recipient and every rate the capped-affine funding value
is at most the effective cap, and in particular every entry of the returned
allocation table is at most its recipient's effective cap. -/
theorem C6_cap_respect (database : List Recipient)
    (total_funding base_funding unincorporated_funding cap : ℚ)
    (out : OutputTable) (bp : ℚ)
    (hne : database ≠ [])
    (hok : optimize_per_person_funding_enum database total_funding base_funding
        unincorporated_funding cap = Except.ok (out, bp)) :
    (∀ PP : ℚ, List.Forall₂ (· ≤ ·)
        (fundingVec database base_funding unincorporated_funding cap PP)
        (capsOf database cap)) ∧
    List.Forall₂ (· ≤ ·) out.per_center_funding (capsOf database cap) := by
  refine ⟨fun PP => fundingVec_le_caps database _ _ _ PP, ?_⟩
  rcases solver_ok database total_funding base_funding unincorporated_funding cap hne with
    ⟨p, hp, heq, -⟩
  have hinj := heq.symm.trans hok
  rw [Except.ok.injEq, Prod.mk.injEq] at hinj
  rw [← hinj.1]
  exact fundingVec_le_caps database _ _ _ p

/-- Witness for C6, on the worked scenario. -/
theorem C6_cap_respect_witness :
    db9 ≠ [] ∧
    optimize_per_person_funding_enum db9 3500 0 0 0 = Except.ok (out9, 10) ∧
    ((∀ PP : ℚ, List.Forall₂ (· ≤ ·) (fundingVec db9 0 0 0 PP) (capsOf db9 0)) ∧
      List.Forall₂ (· ≤ ·) out9.per_center_funding (capsOf db9 0)) :=
  ⟨by simp [db9], run_db9,
    C6_cap_respect db9 3500 0 0 0 out9 10 (by simp [db9]) run_db9⟩

/-- C7: for fixed recipients and parameters with nonnegative
`people_served`, the aggregate `F` is non-decreasing in the rate. -/
theorem C7_aggregate_monotone (database : List Recipient)
    (base_funding unincorporated_funding cap rate1 rate2 : ℚ)
    (hx : ∀ r ∈ database, 0 ≤ r.people_served) (h : rate1 < rate2) :
    aggF database base_funding unincorporated_funding cap rate1 ≤
      aggF database base_funding unincorporated_funding cap rate2 :=
  aggF_mono database _ _ _ hx h.le

/-- Witness for C7, on the worked scenario. -/
theorem C7_aggregate_monotone_witness :
    (∀ r ∈ db9, 0 ≤ r.people_served) ∧ (1 : ℚ) < 2 ∧
    aggF db9 0 0 0 1 ≤ aggF db9 0 0 0 2 := by
  have hx : ∀ r ∈ db9, 0 ≤ r.people_served := by
    intro r hr
    simp only [db9, List.mem_cons, List.not_mem_nil, or_false] at hr
    rcases hr with rfl | rfl | rfl <;> norm_num
  exact ⟨hx, by norm_num, C7_aggregate_monotone db9 0 0 0 1 2 hx (by norm_num)⟩

/-- C8 (amended): the output table echoes `total_funding`, `base_funding`
and `unincorporated_funding` unchanged; the global-cap column echoes the cap
only when it is nonzero — a zero cap is echoed as the sentinel `10^12`,
because line 50 of `app.py` writes the already-overwritten variable. -/
theorem C8_parameter_echo (database : List Recipient)
    (total_funding base_funding unincorporated_funding cap : ℚ)
    (out : OutputTable) (bp : ℚ)
    (hne : database ≠ [])
    (hok : optimize_per_person_funding_enum database total_funding base_funding
        unincorporated_funding cap = Except.ok (out, bp)) :
    out.total_funding_col = total_funding ∧
    out.base_funding_col = base_funding ∧
    out.unincorporated_funding_col = unincorporated_funding ∧
    out.global_cap_col = sentinelize cap ∧
    (cap ≠ 0 → out.global_cap_col = cap) := by
  rcases solver_ok database total_funding base_funding unincorporated_funding cap hne with
    ⟨p, hp, heq, -⟩
  have hinj := heq.symm.trans hok
  rw [Except.ok.injEq, Prod.mk.injEq] at hinj
  rw [← hinj.1]
  refine ⟨rfl, rfl, rfl, rfl, fun hc => ?_⟩
  show sentinelize cap = cap
  unfold sentinelize
  rw [if_neg hc]

/-- Witness for C8's amended theorem, on the worked scenario. -/
theorem C8_parameter_echo_witness :
    db9 ≠ [] ∧
    optimize_per_person_funding_enum db9 3500 0 0 0 = Except.ok (out9, 10) ∧
    (out9.total_funding_col = 3500 ∧ out9.base_funding_col = 0 ∧
      out9.unincorporated_funding_col = 0 ∧ out9.global_cap_col = sentinelize 0 ∧
      ((0 : ℚ) ≠ 0 → out9.global_cap_col = 0)) :=
  ⟨by simp [db9], run_db9,
    C8_parameter_echo db9 3500 0 0 0 out9 10 (by simp [db9]) run_db9⟩

/-- C8 is false as stated: supplying `global_cap = 0` does not echo `0` —
the echoed global-cap column holds the sentinel `10^12`. -/
theorem C8_counterexample :
    optimize_per_person_funding_enum db9 3500 0 0 0 = Except.ok (out9, 10) ∧
    out9.global_cap_col = 1000000000000 ∧
    (1000000000000 : ℚ) ≠ 0 :=
  ⟨run_db9, rfl, by norm_num⟩

/-- C10: on every nonempty record table the scan's first candidate is
accepted, so the solver always returns a defined rate in `[0, 4000]`
(broadcast into the table) and an allocation vector with one entry per
recipient — never an error or an uninitialised result. -/
theorem C10_defined_result (database : List Recipient)
    (total_funding base_funding unincorporated_funding cap : ℚ)
    (hne : database ≠ []) :
    ∃ (out : OutputTable) (bp : ℚ),
      optimize_per_person_funding_enum database total_funding base_funding
          unincorporated_funding cap = Except.ok (out, bp) ∧
      0 ≤ bp ∧ bp ≤ 4000 ∧
      out.per_person_rate = bp ∧
      out.per_center_funding.length = database.length := by
  rcases solver_ok database total_funding base_funding unincorporated_funding cap hne with
    ⟨p, hp, heq, -⟩
  refine ⟨_, p, heq, ppValues_nonneg hp, ppValues_le hp, rfl, ?_⟩
  show (fundingVec database base_funding unincorporated_funding cap p).length = _
  rw [fundingVec, List.length_zipWith, capsOf, List.length_map, min_self]

/-- Witness for C10, on the worked scenario. -/
theorem C10_defined_result_witness :
    db9 ≠ [] ∧
    (∃ (out : OutputTable) (bp : ℚ),
      optimize_per_person_funding_enum db9 3500 0 0 0 = Except.ok (out, bp) ∧
      0 ≤ bp ∧ bp ≤ 4000 ∧
      out.per_person_rate = bp ∧
      out.per_center_funding.length = db9.length) :=
  ⟨by simp [db9], C10_defined_result db9 3500 0 0 0 (by simp [db9])⟩

end RateCapSim
